import Mathlib

/-!
Shallow embedding of the first-person player controller from
src/src/code/tutorials/fps/game/src/player.rs (the Player script:
on_os_event and on_update).

Modelling conventions:
- f32 / f64 scalars of the input side (yaw, pitch, mouse deltas) are
  embedded as exact rationals; the vector and quaternion arithmetic of
  on_update is embedded over the reals (normalization needs a square
  root, the rotations need sine and cosine).
- The winit event union is embedded as the inductive Event with a
  catch-all constructor for every event kind the code ignores, and the
  key-code enum keeps the four recognized codes plus a catch-all for
  every other physical key.
- ScriptContext models the part of the engine context the script
  touches: the resolution result of the camera handle (None when
  try_get_mut fails) and the resolution result of
  try_get_mut_of_type::<RigidBody>(context.handle) (None when the node
  is not a rigid body).
-/

/-- ElementState of winit: a key event is either a press or a release. -/
inductive ElementState where
  | pressed
  | released
deriving DecidableEq, BEq

/-- The physical key codes the controller distinguishes: KeyW, KeyS, KeyA,
KeyD, and a catch-all for every other key code (player.rs line 97). -/
inductive KeyCode where
  | keyW
  | keyS
  | keyA
  | keyD
  | otherKey (n : Nat)
deriving DecidableEq

/-- PhysicalKey of winit: a known key code or an unidentified native key. -/
inductive PhysicalKey where
  | code (c : KeyCode)
  | unidentified
deriving DecidableEq

/-- The event union as seen by on_os_event: a raw mouse-motion device event
with an (dx, dy) delta, a window keyboard event with a physical key and a
press state, and a catch-all for every other event kind (player.rs
line 101). -/
inductive Event where
  | mouseMotion (dx dy : ℚ)
  | keyboard (key : PhysicalKey) (state : ElementState)
  | other
deriving DecidableEq

/-- The Player script state (player.rs lines 18-49): four movement flags,
the yaw and pitch accumulators, and the camera node handle. -/
structure Player where
  moveForward : Bool
  moveBackward : Bool
  moveLeft : Bool
  moveRight : Bool
  yaw : ℚ
  pitch : ℚ
  camera : Nat
deriving DecidableEq

/-- Rust f32::clamp (player.rs line 74): x.clamp(lo, hi) is lo when x < lo,
hi when x > hi, and x otherwise. -/
def rustClamp (x lo hi : ℚ) : ℚ :=
  if x < lo then lo else if x > hi then hi else x

/-- The mouse sensitivity constant (player.rs line 73). -/
def mouseSpeed : ℚ := 0.35

/-- on_os_event (player.rs lines 61-103): mouse motion clamps the updated
pitch to [-89.9, 89.9] and accumulates yaw unbounded; a keyboard event with
a recognized key code overwrites the matching movement flag with the press
state; everything else is ignored. -/
def handleEvent (p : Player) (e : Event) : Player :=
  match e with
  | .mouseMotion dx dy =>
      { p with
        pitch := rustClamp (p.pitch + dy * mouseSpeed) (-89.9) 89.9
        yaw := p.yaw - dx * mouseSpeed }
  | .keyboard key st =>
      match key with
      | .code c =>
          let isPressed := st == ElementState.pressed
          match c with
          | .keyW => { p with moveForward := isPressed }
          | .keyS => { p with moveBackward := isPressed }
          | .keyA => { p with moveLeft := isPressed }
          | .keyD => { p with moveRight := isPressed }
          | .otherKey _ => p
      | .unidentified => p
  | .other => p

/-- A sequence of mouse-motion deltas folded through on_os_event. -/
def applyMotions (p : Player) (ds : List (ℚ × ℚ)) : Player :=
  ds.foldl (fun st d => handleEvent st (Event.mouseMotion d.1 d.2)) p

/-- A 3-vector over the reals (nalgebra Vector3 with f32 entries). -/
structure Vec3 where
  x : ℝ
  y : ℝ
  z : ℝ

instance : Zero Vec3 := ⟨⟨0, 0, 0⟩⟩

instance : Add Vec3 := ⟨fun a b => ⟨a.x + b.x, a.y + b.y, a.z + b.z⟩⟩

instance : Sub Vec3 := ⟨fun a b => ⟨a.x - b.x, a.y - b.y, a.z - b.z⟩⟩

/-- nalgebra norm_squared: the sum of the squared components. -/
def Vec3.normSq (v : Vec3) : ℝ := v.x * v.x + v.y * v.y + v.z * v.z

/-- nalgebra norm: the euclidean length. -/
noncomputable def Vec3.norm (v : Vec3) : ℝ := Real.sqrt v.normSq

/-- Componentwise division by the euclidean length (nalgebra unscale by
the norm, as used inside try_normalize and Unit::new_normalize). -/
noncomputable def normalizeV (v : Vec3) : Vec3 :=
  ⟨v.x / v.norm, v.y / v.norm, v.z / v.norm⟩

/-- f32::EPSILON, the machine epsilon 2 to the power -23. -/
noncomputable def f32Epsilon : ℝ := 1 / 8388608

/-- nalgebra try_normalize(min_norm): None when the length is at most
min_norm, otherwise the vector divided by its length (player.rs
line 148). -/
noncomputable def tryNormalize (v : Vec3) (minNorm : ℝ) : Option Vec3 :=
  if v.norm ≤ minNorm then none else some (normalizeV v)

/-- A quaternion with real coefficients (nalgebra Quaternion). -/
structure Quat where
  re : ℝ
  i : ℝ
  j : ℝ
  k : ℝ

/-- The Hamilton product. -/
def Quat.mul (a b : Quat) : Quat :=
  ⟨a.re * b.re - a.i * b.i - a.j * b.j - a.k * b.k,
   a.re * b.i + a.i * b.re + a.j * b.k - a.k * b.j,
   a.re * b.j - a.i * b.k + a.j * b.re + a.k * b.i,
   a.re * b.k + a.i * b.j - a.j * b.i + a.k * b.re⟩

instance : Mul Quat := ⟨Quat.mul⟩

/-- The quaternion conjugate. -/
def Quat.conj (a : Quat) : Quat := ⟨a.re, -a.i, -a.j, -a.k⟩

/-- The rotation action of a unit quaternion on a vector: the imaginary
part of q * v * conj q (nalgebra UnitQuaternion applied to a vector, as
in yaw * Vector3::x() at player.rs line 119). -/
def rotateVec (q : Quat) (v : Vec3) : Vec3 :=
  let r := q * ⟨0, v.x, v.y, v.z⟩ * q.conj
  ⟨r.i, r.j, r.k⟩

/-- nalgebra UnitQuaternion::from_axis_angle for a unit axis: the scalar
part is the cosine of half the angle, the vector part is the axis scaled
by the sine of half the angle. -/
noncomputable def fromAxisAngle (axis : Vec3) (angle : ℝ) : Quat :=
  ⟨Real.cos (angle / 2),
   Real.sin (angle / 2) * axis.x,
   Real.sin (angle / 2) * axis.y,
   Real.sin (angle / 2) * axis.z⟩

/-- Vector3::x(), the world X axis. -/
def xAxis : Vec3 := ⟨1, 0, 0⟩

/-- Vector3::y_axis(), the world vertical axis. -/
def yAxis : Vec3 := ⟨0, 1, 0⟩

/-- f32::to_radians: degrees times pi over 180. -/
noncomputable def toRadians (deg : ℝ) : ℝ := deg * (Real.pi / 180)

/-- The camera node as the script sees it: the cached look and side basis
vectors (read at player.rs lines 112-113, derived from the global
transform of the previous frame) and the local rotation the script
writes. -/
structure Camera where
  lookVector : Vec3
  sideVector : Vec3
  rotation : Quat

/-- The rigid body the script drives: its linear velocity. -/
structure RigidBodyNode where
  linVel : Vec3

/-- The part of the engine ScriptContext the script touches: the
resolution result of the camera handle, and the resolution result of
try_get_mut_of_type::<RigidBody>(context.handle). -/
structure ScriptContext where
  camera : Option Camera
  node : Option RigidBodyNode

/-- The look vector used this tick: the camera basis when the handle
resolves, Vector3::default() otherwise (player.rs lines 109-112). -/
def usedLook (ctx : ScriptContext) : Vec3 :=
  match ctx.camera with
  | some cam => cam.lookVector
  | none => 0

/-- The side vector used this tick (player.rs lines 110-113). -/
def usedSide (ctx : ScriptContext) : Vec3 :=
  match ctx.camera with
  | some cam => cam.sideVector
  | none => 0

/-- The yaw quaternion (player.rs line 115): rotation about the world
vertical axis by the yaw accumulator converted to radians. -/
noncomputable def yawQuat (p : Player) : Quat :=
  fromAxisAngle yAxis (toRadians (p.yaw : ℝ))

/-- The rotation written to the camera transform (player.rs lines
116-122): pitch rotation about the normalized yaw-rotated X axis,
composed with the yaw rotation. -/
noncomputable def newCameraRotation (p : Player) : Quat :=
  fromAxisAngle (normalizeV (rotateVec (yawQuat p) xAxis))
      (toRadians (p.pitch : ℝ)) * yawQuat p

/-- The raw movement direction accumulated from the held flags (player.rs
lines 133-145): plus look when forward, minus look when backward, plus
side when left, minus side when right. -/
def rawDirection (p : Player) (look side : Vec3) : Vec3 :=
  let v0 : Vec3 := 0
  let v1 := if p.moveForward then v0 + look else v0
  let v2 := if p.moveBackward then v1 - look else v1
  let v3 := if p.moveLeft then v2 + side else v2
  if p.moveRight then v3 - side else v3

/-- The velocity written to the rigid body (player.rs lines 147-158):
when the raw direction normalizes, its X and Z components scaled by
240 * dt with the prior vertical velocity kept; otherwise exactly
(0, y_vel, 0). -/
noncomputable def newLinVel (p : Player) (look side : Vec3) (yVel dt : ℝ) : Vec3 :=
  match tryNormalize (rawDirection p look side) f32Epsilon with
  | some n => ⟨n.x * (240 * dt), yVel, n.z * (240 * dt)⟩
  | none => ⟨0, yVel, 0⟩

/-- on_update (player.rs lines 107-160): read the look and side vectors
of the resolved camera (zero when unresolved), write the new camera
rotation, and when the node is a rigid body write the new linear
velocity; the script state itself is returned unchanged. -/
noncomputable def onUpdate (p : Player) (ctx : ScriptContext) (dt : ℝ) :
    Player × ScriptContext :=
  let lookVector := usedLook ctx
  let sideVector := usedSide ctx
  let camera := ctx.camera.map fun cam =>
    { cam with rotation := newCameraRotation p }
  let node := ctx.node.map fun rb =>
    { rb with linVel := newLinVel p lookVector sideVector rb.linVel.y dt }
  (p, ⟨camera, node⟩)

/-- A player with all flags clear and zero accumulators, as spawned. -/
def idlePlayer : Player := ⟨false, false, false, false, 0, 0, 0⟩

/-- A player holding only the forward key. -/
def forwardPlayer : Player := ⟨true, false, false, false, 0, 0, 0⟩

/-- A camera looking along negative Z with side along positive X. -/
def testCamera : Camera := ⟨⟨0, 0, -1⟩, ⟨1, 0, 0⟩, ⟨1, 0, 0, 0⟩⟩

/-- A rigid body with a nonzero prior velocity. -/
def testBody : RigidBodyNode := ⟨⟨9, 5, 7⟩⟩

theorem Quat.mul_def (a b : Quat) : a * b = Quat.mul a b := rfl

theorem Vec3.zero_def : (0 : Vec3) = ⟨0, 0, 0⟩ := rfl

theorem Vec3.add_def (a b : Vec3) : a + b = ⟨a.x + b.x, a.y + b.y, a.z + b.z⟩ := rfl

theorem Vec3.sub_def (a b : Vec3) : a - b = ⟨a.x - b.x, a.y - b.y, a.z - b.z⟩ := rfl

theorem rustClamp_le (x lo hi : ℚ) (h : lo ≤ hi) : rustClamp x lo hi ≤ hi := by
  unfold rustClamp
  split
  · exact h
  · split
    · exact le_refl hi
    · exact le_of_not_lt (by assumption)

theorem rustClamp_ge (x lo hi : ℚ) (h : lo ≤ hi) : lo ≤ rustClamp x lo hi := by
  unfold rustClamp
  split
  · exact le_refl lo
  · split
    · exact h
    · exact le_of_not_lt (by assumption)

theorem pitch_step_bounds (p : Player) (dx dy : ℚ) :
    -89.9 ≤ (handleEvent p (Event.mouseMotion dx dy)).pitch ∧
      (handleEvent p (Event.mouseMotion dx dy)).pitch ≤ 89.9 := by
  have h : (-89.9 : ℚ) ≤ 89.9 := by norm_num
  exact ⟨rustClamp_ge _ _ _ h, rustClamp_le _ _ _ h⟩

theorem applyMotions_cons (p : Player) (d : ℚ × ℚ) (ds : List (ℚ × ℚ)) :
    applyMotions p (d :: ds) = applyMotions (handleEvent p (Event.mouseMotion d.1 d.2)) ds := rfl

theorem applyMotions_pitch_bounds (ds : List (ℚ × ℚ)) (p : Player)
    (h1 : -89.9 ≤ p.pitch) (h2 : p.pitch ≤ 89.9) :
    -89.9 ≤ (applyMotions p ds).pitch ∧ (applyMotions p ds).pitch ≤ 89.9 := by
  induction ds generalizing p with
  | nil => exact ⟨h1, h2⟩
  | cons d ds ih =>
      rw [applyMotions_cons]
      exact ih _ (pitch_step_bounds p d.1 d.2).1 (pitch_step_bounds p d.1 d.2).2

theorem tryNormalize_of_gt {v : Vec3} {m : ℝ} (h : m < v.norm) :
    tryNormalize v m = some (normalizeV v) := by
  unfold tryNormalize
  rw [if_neg (not_le.mpr h)]

theorem tryNormalize_of_le {v : Vec3} {m : ℝ} (h : v.norm ≤ m) :
    tryNormalize v m = none := by
  unfold tryNormalize
  rw [if_pos h]

theorem rotate_yaw_xAxis (θ : ℝ) :
    rotateVec (fromAxisAngle yAxis θ) xAxis =
      ⟨Real.cos (θ / 2) * Real.cos (θ / 2) - Real.sin (θ / 2) * Real.sin (θ / 2), 0,
        -(2 * Real.sin (θ / 2) * Real.cos (θ / 2))⟩ := by
  simp only [rotateVec, fromAxisAngle, yAxis, xAxis, Quat.mul_def, Quat.mul, Quat.conj,
    Vec3.mk.injEq]
  refine ⟨by ring, by ring, by ring⟩

theorem norm_rotate_yaw (θ : ℝ) :
    (rotateVec (fromAxisAngle yAxis θ) xAxis).norm = 1 := by
  rw [rotate_yaw_xAxis]
  have hsc : Real.sin (θ / 2) ^ 2 + Real.cos (θ / 2) ^ 2 = 1 := Real.sin_sq_add_cos_sq _
  have h1 : (⟨Real.cos (θ / 2) * Real.cos (θ / 2) - Real.sin (θ / 2) * Real.sin (θ / 2), 0,
      -(2 * Real.sin (θ / 2) * Real.cos (θ / 2))⟩ : Vec3).normSq = 1 := by
    simp only [Vec3.normSq]
    have h2 : (Real.cos (θ / 2) * Real.cos (θ / 2) - Real.sin (θ / 2) * Real.sin (θ / 2)) *
          (Real.cos (θ / 2) * Real.cos (θ / 2) - Real.sin (θ / 2) * Real.sin (θ / 2)) +
          (0 : ℝ) * 0 +
          -(2 * Real.sin (θ / 2) * Real.cos (θ / 2)) * -(2 * Real.sin (θ / 2) * Real.cos (θ / 2)) =
        (Real.sin (θ / 2) ^ 2 + Real.cos (θ / 2) ^ 2) ^ 2 := by ring
    rw [h2, hsc, one_pow]
  rw [Vec3.norm, h1, Real.sqrt_one]

theorem normalize_rotate_yaw (θ : ℝ) :
    normalizeV (rotateVec (fromAxisAngle yAxis θ) xAxis) =
      rotateVec (fromAxisAngle yAxis θ) xAxis := by
  unfold normalizeV
  rw [norm_rotate_yaw]
  simp only [div_one]

theorem normalize_rotate_yawQuat (p : Player) :
    normalizeV (rotateVec (yawQuat p) xAxis) = rotateVec (yawQuat p) xAxis := by
  unfold yawQuat
  exact normalize_rotate_yaw (toRadians (p.yaw : ℝ))

theorem newLinVel_of_gt (p : Player) (look side : Vec3) (yVel dt : ℝ)
    (h : f32Epsilon < (rawDirection p look side).norm) :
    newLinVel p look side yVel dt =
      ⟨(normalizeV (rawDirection p look side)).x * (240 * dt), yVel,
        (normalizeV (rawDirection p look side)).z * (240 * dt)⟩ := by
  unfold newLinVel
  rw [tryNormalize_of_gt h]

theorem newLinVel_of_le (p : Player) (look side : Vec3) (yVel dt : ℝ)
    (h : (rawDirection p look side).norm ≤ f32Epsilon) :
    newLinVel p look side yVel dt = ⟨0, yVel, 0⟩ := by
  unfold newLinVel
  rw [tryNormalize_of_le h]

/-- C1: on a tick where the camera reference resolves, the controlled node
is a rigid body and the raw movement direction has length above the
near-zero epsilon, on_update writes the linear velocity
(n.x * 240 * dt, y_old, n.z * 240 * dt), with n the normalized raw
direction and y_old the vertical velocity read before the write. -/
theorem C1_velocity_write (p : Player) (ctx : ScriptContext) (dt : ℝ)
    (cam : Camera) (rb : RigidBodyNode)
    (hcam : ctx.camera = some cam) (hrb : ctx.node = some rb)
    (hmag : f32Epsilon < (rawDirection p (usedLook ctx) (usedSide ctx)).norm) :
    (onUpdate p ctx dt).2.node =
      some ⟨⟨(normalizeV (rawDirection p (usedLook ctx) (usedSide ctx))).x * 240 * dt,
        rb.linVel.y,
        (normalizeV (rawDirection p (usedLook ctx) (usedSide ctx))).z * 240 * dt⟩⟩ := by
  simp only [onUpdate, hrb, Option.map_some']
  rw [newLinVel_of_gt p (usedLook ctx) (usedSide ctx) rb.linVel.y dt hmag]
  rw [Option.some_inj, RigidBodyNode.mk.injEq, Vec3.mk.injEq]
  exact ⟨(mul_assoc _ _ _).symm, rfl, (mul_assoc _ _ _).symm⟩

/-- Witness for C1: only forward held, look vector (0, 0, -1), dt 1/60,
prior velocity (9, 5, 7): the written velocity is (0, 5, -4). -/
theorem C1_velocity_write_witness :
    f32Epsilon < (rawDirection forwardPlayer (usedLook ⟨some testCamera, some testBody⟩)
        (usedSide ⟨some testCamera, some testBody⟩)).norm ∧
    (onUpdate forwardPlayer ⟨some testCamera, some testBody⟩ (1 / 60)).2.node =
      some ⟨⟨0, 5, -4⟩⟩ := by
  have hraw : rawDirection forwardPlayer (usedLook ⟨some testCamera, some testBody⟩)
      (usedSide ⟨some testCamera, some testBody⟩) = ⟨0, 0, -1⟩ := by
    simp [rawDirection, forwardPlayer, usedLook, usedSide, testCamera, Vec3.add_def,
      Vec3.zero_def]
  have hnorm : (rawDirection forwardPlayer (usedLook ⟨some testCamera, some testBody⟩)
      (usedSide ⟨some testCamera, some testBody⟩)).norm = 1 := by
    rw [hraw]
    unfold Vec3.norm Vec3.normSq
    norm_num
  have hmag : f32Epsilon < (rawDirection forwardPlayer
      (usedLook ⟨some testCamera, some testBody⟩)
      (usedSide ⟨some testCamera, some testBody⟩)).norm := by
    rw [hnorm]
    unfold f32Epsilon
    norm_num
  refine ⟨hmag, ?_⟩
  rw [C1_velocity_write forwardPlayer ⟨some testCamera, some testBody⟩ (1 / 60)
    testCamera testBody rfl rfl hmag, hraw]
  have hnv : normalizeV (⟨0, 0, -1⟩ : Vec3) = ⟨0, 0, -1⟩ := by
    unfold normalizeV Vec3.norm Vec3.normSq
    norm_num
  rw [hnv, Option.some_inj, RigidBodyNode.mk.injEq, Vec3.mk.injEq]
  refine ⟨by norm_num, by simp [testBody], by norm_num⟩

/-- C2: on a tick where the controlled node is a rigid body and the raw
movement direction is within epsilon of zero, on_update writes exactly
(0, y_old, 0), for any prior horizontal velocity. -/
theorem C2_instant_stop (p : Player) (ctx : ScriptContext) (dt : ℝ)
    (rb : RigidBodyNode) (hrb : ctx.node = some rb)
    (hmag : (rawDirection p (usedLook ctx) (usedSide ctx)).norm ≤ f32Epsilon) :
    (onUpdate p ctx dt).2.node = some ⟨⟨0, rb.linVel.y, 0⟩⟩ := by
  simp only [onUpdate, hrb, Option.map_some']
  rw [newLinVel_of_le p (usedLook ctx) (usedSide ctx) rb.linVel.y dt hmag]

/-- Witness for C2: no key held, camera unresolved, prior velocity
(3, 7, 2): the written velocity is (0, 7, 0). -/
theorem C2_instant_stop_witness :
    (rawDirection idlePlayer (usedLook ⟨none, some ⟨⟨3, 7, 2⟩⟩⟩)
        (usedSide ⟨none, some ⟨⟨3, 7, 2⟩⟩⟩)).norm ≤ f32Epsilon ∧
    (onUpdate idlePlayer ⟨none, some ⟨⟨3, 7, 2⟩⟩⟩ 1).2.node = some ⟨⟨0, 7, 0⟩⟩ := by
  have hraw : rawDirection idlePlayer (usedLook ⟨none, some ⟨⟨3, 7, 2⟩⟩⟩)
      (usedSide ⟨none, some ⟨⟨3, 7, 2⟩⟩⟩) = ⟨0, 0, 0⟩ := by
    simp [rawDirection, idlePlayer, Vec3.zero_def]
  have hmag : (rawDirection idlePlayer (usedLook ⟨none, some ⟨⟨3, 7, 2⟩⟩⟩)
      (usedSide ⟨none, some ⟨⟨3, 7, 2⟩⟩⟩)).norm ≤ f32Epsilon := by
    rw [hraw]
    unfold Vec3.norm Vec3.normSq f32Epsilon
    norm_num
  exact ⟨hmag, C2_instant_stop idlePlayer ⟨none, some ⟨⟨3, 7, 2⟩⟩⟩ 1 ⟨⟨3, 7, 2⟩⟩ rfl hmag⟩

/-- C3: for every initial pitch in [-89.9, 89.9] and every sequence of
pointer-motion events of arbitrary magnitude and sign, the pitch
accumulator stays in the closed interval [-89.9, 89.9]. -/
theorem C3_pitch_interval (p : Player) (ds : List (ℚ × ℚ))
    (h1 : -89.9 ≤ p.pitch) (h2 : p.pitch ≤ 89.9) :
    -89.9 ≤ (applyMotions p ds).pitch ∧ (applyMotions p ds).pitch ≤ 89.9 :=
  applyMotions_pitch_bounds ds p h1 h2

/-- Witness for C3: initial pitch 0, a huge upward delta followed by a
small one: the pitch stays in the closed interval. -/
theorem C3_pitch_interval_witness :
    (-89.9 ≤ idlePlayer.pitch ∧ idlePlayer.pitch ≤ 89.9) ∧
    (-89.9 ≤ (applyMotions idlePlayer [(3, 100000), (-5, -7)]).pitch ∧
      (applyMotions idlePlayer [(3, 100000), (-5, -7)]).pitch ≤ 89.9) :=
  ⟨⟨by norm_num [idlePlayer], by norm_num [idlePlayer]⟩,
    C3_pitch_interval idlePlayer [(3, 100000), (-5, -7)]
      (by norm_num [idlePlayer]) (by norm_num [idlePlayer])⟩

/-- C4 counterexample: the claim says the pitch never equals 89.9, but a
single pointer-motion event with dy = 300 drives the pitch from 0 to
exactly the clamp boundary 89.9. -/
theorem C4_counterexample :
    (handleEvent idlePlayer (Event.mouseMotion 0 300)).pitch = 89.9 := by
  norm_num [handleEvent, idlePlayer, mouseSpeed, rustClamp]

/-- C4 (amended): the pitch accumulator is kept in the closed interval
[-89.9, 89.9]: after any nonempty sequence of pointer-motion events the
pitch lies between -89.9 and 89.9 inclusive, whatever the initial pitch;
the clamp boundaries themselves are attainable. -/
theorem C4_pitch_closed_interval (p : Player) (d : ℚ × ℚ) (ds : List (ℚ × ℚ)) :
    -89.9 ≤ (applyMotions p (d :: ds)).pitch ∧ (applyMotions p (d :: ds)).pitch ≤ 89.9 := by
  rw [applyMotions_cons]
  exact applyMotions_pitch_bounds ds _ (pitch_step_bounds p d.1 d.2).1
    (pitch_step_bounds p d.1 d.2).2

/-- C5: yaw accumulates additively and unclamped: two pointer-motion
events with horizontal deltas dx1 and dx2 leave the yaw equal to
yaw0 - 0.35 * (dx1 + dx2). -/
theorem C5_yaw_additive (p : Player) (dx1 dy1 dx2 dy2 : ℚ) :
    (handleEvent (handleEvent p (Event.mouseMotion dx1 dy1))
        (Event.mouseMotion dx2 dy2)).yaw = p.yaw - 0.35 * (dx1 + dx2) := by
  simp only [handleEvent, mouseSpeed]
  ring

/-- C6: the keyboard handler maps W, S, A, D to the forward, backward,
left and right flags, overwrites the flag with the press state of the
latest event, ignores every other key code, and release always leaves the
flag false (so press-then-release restores false, and releasing an
unpressed key keeps false). -/
theorem C6_keyboard_mapping (p : Player) (s : ElementState) (n : Nat) :
    handleEvent p (Event.keyboard (PhysicalKey.code KeyCode.keyW) s) =
        { p with moveForward := s == ElementState.pressed } ∧
    handleEvent p (Event.keyboard (PhysicalKey.code KeyCode.keyS) s) =
        { p with moveBackward := s == ElementState.pressed } ∧
    handleEvent p (Event.keyboard (PhysicalKey.code KeyCode.keyA) s) =
        { p with moveLeft := s == ElementState.pressed } ∧
    handleEvent p (Event.keyboard (PhysicalKey.code KeyCode.keyD) s) =
        { p with moveRight := s == ElementState.pressed } ∧
    handleEvent p (Event.keyboard (PhysicalKey.code (KeyCode.otherKey n)) s) = p ∧
    (ElementState.pressed == ElementState.pressed) = true ∧
    (ElementState.released == ElementState.pressed) = false ∧
    (handleEvent (handleEvent p
        (Event.keyboard (PhysicalKey.code KeyCode.keyW) ElementState.pressed))
        (Event.keyboard (PhysicalKey.code KeyCode.keyW) ElementState.released)).moveForward
      = false ∧
    (handleEvent p
        (Event.keyboard (PhysicalKey.code KeyCode.keyW) ElementState.released)).moveForward
      = false :=
  ⟨rfl, rfl, rfl, rfl, rfl, rfl, rfl, rfl, rfl⟩

/-- C7: when the camera resolves, on_update writes the local orientation
Rp * Ry, with Ry the yaw rotation about the world vertical axis and Rp
the pitch rotation about the yaw-rotated world X axis, and the look and
side vectors used this tick are the ones read before that write. -/
theorem C7_orientation_write (p : Player) (ctx : ScriptContext) (dt : ℝ)
    (cam : Camera) (hcam : ctx.camera = some cam) :
    (onUpdate p ctx dt).2.camera =
        some { cam with
          rotation := fromAxisAngle (rotateVec (yawQuat p) xAxis)
              (toRadians (p.pitch : ℝ)) * yawQuat p } ∧
    usedLook ctx = cam.lookVector ∧ usedSide ctx = cam.sideVector := by
  refine ⟨?_, by simp [usedLook, hcam], by simp [usedSide, hcam]⟩
  simp only [onUpdate, hcam, Option.map_some']
  have hrot : newCameraRotation p =
      fromAxisAngle (rotateVec (yawQuat p) xAxis) (toRadians (p.pitch : ℝ)) * yawQuat p := by
    unfold newCameraRotation
    rw [normalize_rotate_yawQuat]
  rw [hrot]

/-- Witness for C7: a resolved camera with identity rotation and an idle
player; the written rotation is the composed quaternion and the used look
and side vectors are the ones cached in the camera. -/
theorem C7_orientation_write_witness :
    (onUpdate idlePlayer ⟨some testCamera, none⟩ 1).2.camera =
        some { testCamera with
          rotation := fromAxisAngle (rotateVec (yawQuat idlePlayer) xAxis)
              (toRadians (idlePlayer.pitch : ℝ)) * yawQuat idlePlayer } ∧
    usedLook ⟨some testCamera, none⟩ = testCamera.lookVector ∧
    usedSide ⟨some testCamera, none⟩ = testCamera.sideVector :=
  C7_orientation_write idlePlayer ⟨some testCamera, none⟩ 1 testCamera rfl

/-- C8: on_update never signals a failure: an unresolved camera skips only
the orientation write and leaves zero look and side vectors, a
non-rigid-body node skips only the velocity write, and the orientation
write does not depend on the rigid-body branch. -/
theorem C8_graceful_skips (p : Player) (ctx : ScriptContext) (dt : ℝ) :
    (ctx.camera = none →
      (onUpdate p ctx dt).2.camera = none ∧ usedLook ctx = 0 ∧ usedSide ctx = 0) ∧
    (ctx.node = none → (onUpdate p ctx dt).2.node = none) ∧
    (onUpdate p ctx dt).2.camera = (onUpdate p ⟨ctx.camera, none⟩ dt).2.camera := by
  refine ⟨fun h => ⟨?_, ?_, ?_⟩, fun h => ?_, rfl⟩
  · simp [onUpdate, h]
  · simp [usedLook, h]
  · simp [usedSide, h]
  · simp [onUpdate, h]

/-- Witness for C8: with neither the camera nor the rigid body resolving,
on_update writes nothing. -/
theorem C8_graceful_skips_witness :
    (onUpdate idlePlayer ⟨none, none⟩ 1).2.camera = none ∧
    (onUpdate idlePlayer ⟨none, none⟩ 1).2.node = none :=
  ⟨((C8_graceful_skips idlePlayer ⟨none, none⟩ 1).1 rfl).1,
    (C8_graceful_skips idlePlayer ⟨none, none⟩ 1).2.1 rfl⟩

/-- C9: every event that is neither a pointer-motion event nor a keyboard
event with a recognized key code leaves the whole script state unchanged:
other event kinds, unrecognized key codes, and unidentified physical
keys. -/
theorem C9_unrecognized_ignored (p : Player) (n : Nat) (s : ElementState) :
    handleEvent p Event.other = p ∧
    handleEvent p (Event.keyboard (PhysicalKey.code (KeyCode.otherKey n)) s) = p ∧
    handleEvent p (Event.keyboard PhysicalKey.unidentified s) = p :=
  ⟨rfl, rfl, rfl⟩

/-- C10: on_update never modifies the script state itself: the flags, the
accumulators and the camera handle are returned unchanged; only the
external camera rotation and rigid-body velocity are written. -/
theorem C10_script_state_unchanged (p : Player) (ctx : ScriptContext) (dt : ℝ) :
    (onUpdate p ctx dt).1 = p := rfl
